import Mathlib

/-!
Verification of the daylog per-request security core against its
natural-language specification.

The rate limiter (`RateLimiter`, `getClientIP`) is embedded from the
TypeScript source `utils/rateLimit.ts`.  The CSRF guard, TOTP engine and
base32 codec are not present in the provided sources (only their test
files are), so those definitions are modelled from the specification, as
their doc comments state.

Conventions of the embedding:
- `Date.now()` timestamps are nonnegative integers of milliseconds and are
  passed explicitly as a `now : Nat` argument.
- The JavaScript `Map<string, RateLimitEntry>` is embedded as the function
  type `String → Option RateLimitEntry`.
- `headers.get(name)` is `Option String`; JavaScript truthiness of a
  string-or-null value (`null` and `""` are falsy) is `jsTruthy`.
- Counters are `Nat`; the `remaining` field of a rate-limit decision is
  `Int` because the JavaScript subtraction `maxRequests - count` can be
  negative when the configured budget is `0`.
-/

/-- One entry of the rate limiter table, from `interface RateLimitEntry`
in `utils/rateLimit.ts`: a request count and an absolute reset time. -/
structure RateLimitEntry where
  count : Nat
  resetTime : Nat
deriving DecidableEq, Repr

/-- The value returned by `RateLimiter.isAllowed`:
`{ allowed: boolean; resetTime: number; remaining: number }`. -/
structure RateLimitResult where
  allowed : Bool
  resetTime : Nat
  remaining : Int
deriving DecidableEq, Repr

/-- The rate limiter table: the JavaScript `Map<string, RateLimitEntry>`
embedded as a function from keys to optional entries. -/
def RateStore : Type := String → Option RateLimitEntry

/-- `store.set(key, e)` on the embedded map. -/
def setStore (st : RateStore) (key : String) (e : RateLimitEntry) : RateStore :=
  fun k => if k = key then some e else st k

/-- `store.delete(key)` on the embedded map. -/
def delStore (st : RateStore) (key : String) : RateStore :=
  fun k => if k = key then none else st k

/-- The empty map (a freshly constructed limiter's store). -/
def emptyStore : RateStore := fun _ => none

/-- The `RateLimiter` class state from `utils/rateLimit.ts`: the window
length `windowMs`, the budget `maxRequests` and the per-key table.
The cleanup interval handle is omitted: the timer is modelled by
applying `RateLimiter.cleanup` explicitly at chosen times. -/
structure RateLimiter where
  windowMs : Nat
  maxRequests : Nat
  store : RateStore

/-- A freshly constructed `new RateLimiter(windowMs, maxRequests)`:
its store starts empty. -/
def RateLimiter.init (windowMs maxRequests : Nat) : RateLimiter :=
  ⟨windowMs, maxRequests, emptyStore⟩

/-- `RateLimiter.isAllowed(key)` from `utils/rateLimit.ts`, with the
ambient `Date.now()` passed explicitly.  Returns the decision together
with the updated limiter state. -/
def RateLimiter.isAllowed (rl : RateLimiter) (now : Nat) (key : String) :
    RateLimitResult × RateLimiter :=
  match rl.store key with
  | none =>
    ({ allowed := true, resetTime := now + rl.windowMs,
       remaining := (rl.maxRequests : Int) - 1 },
     { rl with store := setStore rl.store key ⟨1, now + rl.windowMs⟩ })
  | some entry =>
    if now ≥ entry.resetTime then
      ({ allowed := true, resetTime := now + rl.windowMs,
         remaining := (rl.maxRequests : Int) - 1 },
       { rl with store := setStore rl.store key ⟨1, now + rl.windowMs⟩ })
    else if entry.count ≥ rl.maxRequests then
      ({ allowed := false, resetTime := entry.resetTime, remaining := 0 }, rl)
    else
      ({ allowed := true, resetTime := entry.resetTime,
         remaining := (rl.maxRequests : Int) - (entry.count + 1) },
       { rl with store := setStore rl.store key ⟨entry.count + 1, entry.resetTime⟩ })

/-- `RateLimiter.cleanup()` from `utils/rateLimit.ts`: delete every entry
whose reset time has been reached (`now >= entry.resetTime`). -/
def RateLimiter.cleanup (rl : RateLimiter) (now : Nat) : RateLimiter :=
  { rl with store := fun k =>
      match rl.store k with
      | none => none
      | some e => if now ≥ e.resetTime then none else some e }

/-- `RateLimiter.reset(key)` from `utils/rateLimit.ts`: unconditionally
delete the entry. -/
def RateLimiter.reset (rl : RateLimiter) (key : String) : RateLimiter :=
  { rl with store := delStore rl.store key }

/-- A sequence of `isAllowed` calls for one key at the given times,
collecting the decisions and threading the state. -/
def RateLimiter.run (rl : RateLimiter) (key : String) :
    List Nat → List RateLimitResult × RateLimiter
  | [] => ([], rl)
  | t :: ts =>
    let p := rl.isAllowed t key
    let q := p.2.run key ts
    (p.1 :: q.1, q.2)

/-- JavaScript truthiness of a string-or-null value: `null` and the
empty string are falsy. -/
def jsTruthy : Option String → Bool
  | none => false
  | some s => !(s == "")

/-- JavaScript `s.trim()`: strip whitespace from both ends, embedded as
a structural operation on the character list. -/
def jsTrim (s : String) : String :=
  String.mk (((s.toList.dropWhile Char.isWhitespace).reverse.dropWhile
    Char.isWhitespace).reverse)

/-- JavaScript `s.split(',')` on the character list: always returns at
least one (possibly empty) piece, so `"".split(',')` is `[""]`. -/
def splitCommaChars : List Char → List (List Char)
  | [] => [[]]
  | c :: cs =>
    let r := splitCommaChars cs
    if c = ',' then [] :: r
    else (c :: r.headD []) :: r.tail

/-- JavaScript `s.split(',')`. -/
def jsSplitComma (s : String) : List String :=
  (splitCommaChars s.toList).map String.mk

/-- `getClientIP(request)` from `utils/rateLimit.ts`.  The three header
reads are passed as `Option String` (`none` for an absent header); the
JavaScript `if (header)` checks make the empty string fall through.
First truthy header wins, in the order x-forwarded-for (first
comma-separated entry, trimmed), x-real-ip (trimmed),
cf-connecting-ip (trimmed), else the sentinel. -/
def getClientIP (forwardedFor realIP cfConnectingIP : Option String) : String :=
  if jsTruthy forwardedFor then
    jsTrim ((jsSplitComma (forwardedFor.getD "")).headD "")
  else if jsTruthy realIP then
    jsTrim (realIP.getD "")
  else if jsTruthy cfConnectingIP then
    jsTrim (cfConnectingIP.getD "")
  else
    "unknown"

example :
    ((RateLimiter.init 60000 5).run "test-key" [0, 1]).1.map
      RateLimitResult.remaining = [4, 3] := by decide

example :
    ((RateLimiter.init 60000 2).run "test-key" [0, 1, 2]).1.map
      RateLimitResult.allowed = [true, true, false] := by decide

example : getClientIP (some "192.168.1.1,10.0.0.1") none none = "192.168.1.1" := by
  decide

example : getClientIP none none none = "unknown" := by decide

/-- The decision sequence the fixed-window counter produces for one key
inside one window: entering count `c`, budget `N`, stored reset time `R`,
for `m` further calls. -/
def expectedResults (N R : Nat) : Nat → Nat → List RateLimitResult
  | _, 0 => []
  | c, m + 1 =>
    (if c < N then
      { allowed := true, resetTime := R, remaining := (N : Int) - (c + 1) }
     else
      { allowed := false, resetTime := R, remaining := 0 }) ::
    expectedResults N R (if c < N then c + 1 else c) m

theorem setStore_same (st : RateStore) (key : String) (e : RateLimitEntry) :
    setStore st key e key = some e := by
  simp [setStore]

/-- Inside one window (all call times strictly before the stored reset
time), the limiter behaves as a pure counter: the decisions follow
`expectedResults` and the stored count rises to `min (c + m) N`. -/
theorem run_in_window (W N R : Nat) (key : String) :
    ∀ (ts : List Nat) (st : RateStore) (c : Nat),
      1 ≤ c → c ≤ N → st key = some ⟨c, R⟩ → (∀ t ∈ ts, t < R) →
      ((RateLimiter.mk W N st).run key ts).1 = expectedResults N R c ts.length ∧
      ((RateLimiter.mk W N st).run key ts).2.store key =
        some ⟨min (c + ts.length) N, R⟩
  | [], st, c, hc1, hcN, hst, _ => by
    refine ⟨by simp [RateLimiter.run, expectedResults], ?_⟩
    simp only [RateLimiter.run, List.length_nil]
    rw [hst]
    simp only [Option.some.injEq, RateLimitEntry.mk.injEq]
    exact ⟨by omega, by trivial⟩
  | t :: ts, st, c, hc1, hcN, hst, hts => by
    have htR : t < R := hts t (by simp)
    by_cases hlt : c < N
    · have step :
          (RateLimiter.mk W N st).isAllowed t key =
            ({ allowed := true, resetTime := R, remaining := (N : Int) - (c + 1) },
             RateLimiter.mk W N (setStore st key ⟨c + 1, R⟩)) := by
        simp [RateLimiter.isAllowed, hst, show ¬ R ≤ t from by omega,
          show ¬ N ≤ c from by omega]
      have ih := run_in_window W N R key ts (setStore st key ⟨c + 1, R⟩) (c + 1)
        (by omega) (by omega) (setStore_same _ _ _) (fun u hu => hts u (by simp [hu]))
      constructor
      · simp only [RateLimiter.run, step, List.length_cons, expectedResults,
          if_pos hlt]
        rw [ih.1]
      · simp only [RateLimiter.run, step]
        rw [ih.2]
        simp only [List.length_cons, Option.some.injEq, RateLimitEntry.mk.injEq]
        exact ⟨by omega, by trivial⟩
    · have step :
          (RateLimiter.mk W N st).isAllowed t key =
            ({ allowed := false, resetTime := R, remaining := 0 },
             RateLimiter.mk W N st) := by
        simp [RateLimiter.isAllowed, hst, show ¬ R ≤ t from by omega,
          show N ≤ c from by omega]
      have ih := run_in_window W N R key ts st c hc1 hcN hst
        (fun u hu => hts u (by simp [hu]))
      constructor
      · simp only [RateLimiter.run, step, List.length_cons, expectedResults,
          if_neg hlt]
        rw [ih.1]
      · simp only [RateLimiter.run, step]
        rw [ih.2]
        simp only [List.length_cons, Option.some.injEq, RateLimitEntry.mk.injEq]
        exact ⟨by omega, by trivial⟩

/-- Position `j` of the expected in-window decision sequence. -/
theorem expectedResults_getElem (N R : Nat) :
    ∀ (m c j : Nat), j < m →
      (expectedResults N R c m)[j]? =
        some (if c + j < N then
          { allowed := true, resetTime := R, remaining := (N : Int) - (c + j) - 1 }
        else
          { allowed := false, resetTime := R, remaining := 0 })
  | 0, _, j, hj => by omega
  | m + 1, c, 0, _ => by
    by_cases hlt : c < N
    · simp only [expectedResults, if_pos hlt, List.getElem?_cons_zero,
        if_pos (show c + 0 < N by omega), Option.some.injEq,
        RateLimitResult.mk.injEq]
      refine ⟨by trivial, by trivial, ?_⟩
      push_cast
      ring
    · simp only [expectedResults, if_neg hlt, List.getElem?_cons_zero,
        if_neg (show ¬ c + 0 < N by omega)]
  | m + 1, c, j + 1, hj => by
    by_cases hlt : c < N
    · simp only [expectedResults, if_pos hlt, List.getElem?_cons_succ]
      rw [expectedResults_getElem N R m (c + 1) j (by omega)]
      by_cases hle : c + 1 + j < N
      · simp only [if_pos hle, if_pos (show c + (j + 1) < N by omega),
          Option.some.injEq, RateLimitResult.mk.injEq]
        refine ⟨by trivial, by trivial, ?_⟩
        push_cast
        ring
      · simp only [if_neg hle, if_neg (show ¬ c + (j + 1) < N by omega)]
    · simp only [expectedResults, if_neg hlt, List.getElem?_cons_succ]
      rw [expectedResults_getElem N R m c j (by omega),
        if_neg (show ¬ c + j < N by omega),
        if_neg (show ¬ c + (j + 1) < N by omega)]

example :
    ((RateLimiter.init 60000 2).run "k" [0, 10, 20]).1 =
      [⟨true, 60000, 1⟩, ⟨true, 60000, 0⟩, ⟨false, 60000, 0⟩] := by decide

/-- C1: for a `RateLimiter` with window `W` and budget `N ≥ 1` and a key the
limiter has never seen, the first `N` calls to `isAllowed`, all made within
`W` ms of the first call, return `allowed = true` with strictly decreasing
`remaining` values `N-1, N-2, …, 0`, and the `(N+1)`-th such call returns
`allowed = false` with `remaining = 0`. -/
theorem C1_fixed_window (W N t0 : Nat) (key : String) (ts : List Nat)
    (hN : 1 ≤ N) (hlen : ts.length = N) (hts : ∀ t ∈ ts, t < t0 + W) :
    (∀ i : Nat, i < N →
      (((RateLimiter.init W N).run key (t0 :: ts)).1)[i]? =
        some { allowed := true, resetTime := t0 + W,
               remaining := (N : Int) - 1 - i }) ∧
    (((RateLimiter.init W N).run key (t0 :: ts)).1)[N]? =
      some { allowed := false, resetTime := t0 + W, remaining := 0 } := by
  have step :
      (RateLimiter.init W N).isAllowed t0 key =
        ({ allowed := true, resetTime := t0 + W, remaining := (N : Int) - 1 },
         RateLimiter.mk W N (setStore emptyStore key ⟨1, t0 + W⟩)) := by
    simp [RateLimiter.init, RateLimiter.isAllowed, emptyStore]
  have main := run_in_window W N (t0 + W) key ts (setStore emptyStore key ⟨1, t0 + W⟩)
    1 (by omega) (by omega) (setStore_same _ _ _) hts
  have hrun : ((RateLimiter.init W N).run key (t0 :: ts)).1 =
      { allowed := true, resetTime := t0 + W, remaining := (N : Int) - 1 } ::
      expectedResults N (t0 + W) 1 ts.length := by
    simp only [RateLimiter.run, step]
    rw [main.1]
  constructor
  · intro i hi
    rw [hrun]
    cases i with
    | zero =>
      simp only [List.getElem?_cons_zero, Option.some.injEq,
        RateLimitResult.mk.injEq]
      refine ⟨by trivial, by trivial, ?_⟩
      push_cast
      ring
    | succ j =>
      rw [List.getElem?_cons_succ,
        expectedResults_getElem N (t0 + W) ts.length 1 j (by omega),
        if_pos (show 1 + j < N by omega)]
      simp only [Option.some.injEq, RateLimitResult.mk.injEq]
      refine ⟨by trivial, by trivial, ?_⟩
      push_cast
      ring
  · obtain ⟨M, rfl⟩ : ∃ M, N = M + 1 := ⟨N - 1, by omega⟩
    rw [hrun, List.getElem?_cons_succ,
      expectedResults_getElem (M + 1) (t0 + W) ts.length 1 M (by omega),
      if_neg (show ¬ 1 + M < M + 1 by omega)]

/-- Witness for C1 at `W = 60000`, `N = 2`, call times `0, 10, 20`. -/
theorem C1_fixed_window_witness :
    (1 ≤ 2 ∧ ([10, 20] : List Nat).length = 2 ∧
      (∀ t ∈ ([10, 20] : List Nat), t < 0 + 60000)) ∧
    ((∀ i : Nat, i < 2 →
      (((RateLimiter.init 60000 2).run "k" (0 :: [10, 20])).1)[i]? =
        some { allowed := true, resetTime := 0 + 60000,
               remaining := (2 : Int) - 1 - i }) ∧
    (((RateLimiter.init 60000 2).run "k" (0 :: [10, 20])).1)[2]? =
      some { allowed := false, resetTime := 0 + 60000, remaining := 0 }) :=
  ⟨⟨by decide, by decide, by decide⟩,
   C1_fixed_window 60000 2 0 "k" [10, 20] (by decide) (by decide) (by decide)⟩

/-- C2: if no entry exists for the key, or the stored `resetTime` has been
reached or passed, `isAllowed` overwrites the entry with `count = 1` and
`resetTime = now + W` and returns `allowed = true`,
`remaining = N - 1`, `resetTime = now + W`. -/
theorem C2_window_reset (rl : RateLimiter) (key : String) (now : Nat)
    (h : rl.store key = none ∨
      ∃ e, rl.store key = some e ∧ e.resetTime ≤ now) :
    (rl.isAllowed now key).1 =
      { allowed := true, resetTime := now + rl.windowMs,
        remaining := (rl.maxRequests : Int) - 1 } ∧
    (rl.isAllowed now key).2.store key = some ⟨1, now + rl.windowMs⟩ := by
  rcases h with hnone | ⟨e, hsome, hexp⟩
  · simp [RateLimiter.isAllowed, hnone, setStore_same]
  · simp [RateLimiter.isAllowed, hsome, hexp, setStore_same]

/-- A concrete limiter for the C2 witness: window 50 ms, budget 3, one
entry for key "k" with count 2 that expired at time 7. -/
def rlC2 : RateLimiter := ⟨50, 3, setStore emptyStore "k" ⟨2, 7⟩⟩

/-- Witness for C2: at time 9 ≥ 7 the entry for "k" is recreated with
count 1 and the call is allowed with remaining 2. -/
theorem C2_window_reset_witness :
    (rlC2.isAllowed 9 "k").1 =
      { allowed := true, resetTime := 9 + rlC2.windowMs,
        remaining := (rlC2.maxRequests : Int) - 1 } ∧
    (rlC2.isAllowed 9 "k").2.store "k" = some ⟨1, 9 + rlC2.windowMs⟩ :=
  C2_window_reset rlC2 "k" 9 (Or.inr ⟨⟨2, 7⟩, by decide, by decide⟩)

/-- C6: when the stored entry for the key has `count ≥ maxRequests` and its
reset time has not yet been reached, `isAllowed` returns `allowed = false`,
`remaining = 0` and the stored `resetTime`, and leaves the whole limiter
state (in particular the entry) unchanged. -/
theorem C6_blocked_frame (rl : RateLimiter) (key : String) (now : Nat)
    (e : RateLimitEntry) (h1 : rl.store key = some e)
    (h2 : rl.maxRequests ≤ e.count) (h3 : now < e.resetTime) :
    rl.isAllowed now key =
      ({ allowed := false, resetTime := e.resetTime, remaining := 0 }, rl) := by
  simp [RateLimiter.isAllowed, h1, h2, show ¬ e.resetTime ≤ now from by omega]

/-- A concrete limiter for the C6 witness: window 100 ms, budget 2, one
entry for key "k" with count 2 and reset time 10. -/
def rlC6 : RateLimiter := ⟨100, 2, setStore emptyStore "k" ⟨2, 10⟩⟩

/-- Witness for C6: at time 5 < 10 with count 2 ≥ 2 the call is denied and
the limiter state is returned unchanged. -/
theorem C6_blocked_frame_witness :
    rlC6.isAllowed 5 "k" =
      ({ allowed := false, resetTime := 10, remaining := 0 }, rlC6) :=
  C6_blocked_frame rlC6 "k" 5 ⟨2, 10⟩ (by decide) (by decide) (by decide)

theorem isAllowed_snd_windowMs (rl : RateLimiter) (now : Nat) (key : String) :
    ((rl.isAllowed now key).2).windowMs = rl.windowMs := by
  rcases h : rl.store key with _ | e
  · simp [RateLimiter.isAllowed, h]
  · simp only [RateLimiter.isAllowed, h]
    split_ifs <;> rfl

theorem isAllowed_snd_maxRequests (rl : RateLimiter) (now : Nat) (key : String) :
    ((rl.isAllowed now key).2).maxRequests = rl.maxRequests := by
  rcases h : rl.store key with _ | e
  · simp [RateLimiter.isAllowed, h]
  · simp only [RateLimiter.isAllowed, h]
    split_ifs <;> rfl

/-- `isAllowed` reads only the configuration and the entry of the queried
key: two limiters agreeing there produce the same decision and agree on
that key afterwards. -/
theorem isAllowed_congr (rl1 rl2 : RateLimiter) (now : Nat) (key : String)
    (hW : rl1.windowMs = rl2.windowMs) (hN : rl1.maxRequests = rl2.maxRequests)
    (hst : rl1.store key = rl2.store key) :
    (rl1.isAllowed now key).1 = (rl2.isAllowed now key).1 ∧
    (rl1.isAllowed now key).2.store key = (rl2.isAllowed now key).2.store key := by
  rcases h : rl2.store key with _ | e
  · have h1 : rl1.store key = none := hst.trans h
    simp [RateLimiter.isAllowed, h1, h, hW, hN, setStore_same]
  · have h1 : rl1.store key = some e := hst.trans h
    by_cases hexp : e.resetTime ≤ now
    · simp [RateLimiter.isAllowed, h1, h, hexp, hW, hN, setStore_same]
    · by_cases hcnt : rl2.maxRequests ≤ e.count
      · simp [RateLimiter.isAllowed, h1, h, hexp, hcnt, hN, hst]
      · simp [RateLimiter.isAllowed, h1, h, hexp, hcnt, hN, setStore_same]

/-- `run` on one key reads only the configuration and that key's entry. -/
theorem run_congr (key : String) :
    ∀ (ts : List Nat) (rl1 rl2 : RateLimiter),
      rl1.windowMs = rl2.windowMs → rl1.maxRequests = rl2.maxRequests →
      rl1.store key = rl2.store key →
      (rl1.run key ts).1 = (rl2.run key ts).1 ∧
      (rl1.run key ts).2.store key = (rl2.run key ts).2.store key
  | [], rl1, rl2, hW, hN, hst => ⟨rfl, hst⟩
  | t :: ts, rl1, rl2, hW, hN, hst => by
    have hc := isAllowed_congr rl1 rl2 t key hW hN hst
    have hW' : (rl1.isAllowed t key).2.windowMs =
        (rl2.isAllowed t key).2.windowMs := by
      rw [isAllowed_snd_windowMs, isAllowed_snd_windowMs, hW]
    have hN' : (rl1.isAllowed t key).2.maxRequests =
        (rl2.isAllowed t key).2.maxRequests := by
      rw [isAllowed_snd_maxRequests, isAllowed_snd_maxRequests, hN]
    have ih := run_congr key ts (rl1.isAllowed t key).2 (rl2.isAllowed t key).2
      hW' hN' hc.2
    constructor
    · simp only [RateLimiter.run]
      rw [hc.1, ih.1]
    · simp only [RateLimiter.run]
      exact ih.2

/-- Running the sweep at time `now` does not change what a later
`isAllowed` call (at any time `t ≥ now`) returns, nor the entry the call
leaves behind for its key. -/
theorem isAllowed_cleanup (rl : RateLimiter) (now t : Nat) (key : String)
    (h : now ≤ t) :
    ((rl.cleanup now).isAllowed t key).1 = (rl.isAllowed t key).1 ∧
    ((rl.cleanup now).isAllowed t key).2.store key =
      (rl.isAllowed t key).2.store key := by
  rcases hs : rl.store key with _ | e
  · exact isAllowed_congr _ _ _ _ rfl rfl (by simp [RateLimiter.cleanup, hs])
  · by_cases hexp : e.resetTime ≤ now
    · have hclean : (rl.cleanup now).store key = none := by
        simp [RateLimiter.cleanup, hs, hexp]
      have horig : e.resetTime ≤ t := by omega
      simp [RateLimiter.isAllowed, RateLimiter.cleanup, hs, hexp, horig,
        setStore_same]
    · have hclean : (rl.cleanup now).store key = some e := by
        simp [RateLimiter.cleanup, hs, hexp]
      exact isAllowed_congr _ _ _ _ rfl rfl (hclean.trans hs.symm)

/-- C7: the background sweep at time `now` removes exactly the entries
whose `resetTime` has been reached (`resetTime ≤ now`) and no others, and
running the sweep never changes the decisions of any subsequent sequence
of `isAllowed` calls made at or after the sweep time. -/
theorem C7_cleanup_sound (rl : RateLimiter) (now : Nat) :
    (∀ k e, ((rl.cleanup now).store k = some e ↔
      (rl.store k = some e ∧ now < e.resetTime))) ∧
    (∀ (key : String) (ts : List Nat), (∀ t ∈ ts, now ≤ t) →
      ((rl.cleanup now).run key ts).1 = (rl.run key ts).1) := by
  constructor
  · intro k e
    rcases hs : rl.store k with _ | e'
    · simp [RateLimiter.cleanup, hs]
    · by_cases hexp : e'.resetTime ≤ now
      · simp only [RateLimiter.cleanup, hs, if_pos (show now ≥ e'.resetTime from hexp)]
        constructor
        · intro hfalse
          cases hfalse
        · rintro ⟨heq, hlt⟩
          injection heq with heq
          subst heq
          omega
      · simp only [RateLimiter.cleanup, hs,
          if_neg (show ¬ now ≥ e'.resetTime from hexp)]
        constructor
        · intro heq
          injection heq with heq
          subst heq
          exact ⟨rfl, by omega⟩
        · rintro ⟨heq, _⟩
          exact heq
  · intro key ts hts
    cases ts with
    | nil => rfl
    | cons t ts =>
      have hnow : now ≤ t := hts t (by simp)
      have hstep := isAllowed_cleanup rl now t key hnow
      have hW' : ((rl.cleanup now).isAllowed t key).2.windowMs =
          ((rl.isAllowed t key).2).windowMs := by
        rw [isAllowed_snd_windowMs, isAllowed_snd_windowMs]
        rfl
      have hN' : ((rl.cleanup now).isAllowed t key).2.maxRequests =
          ((rl.isAllowed t key).2).maxRequests := by
        rw [isAllowed_snd_maxRequests, isAllowed_snd_maxRequests]
        rfl
      have ih := run_congr key ts ((rl.cleanup now).isAllowed t key).2
        ((rl.isAllowed t key).2) hW' hN' hstep.2
      simp only [RateLimiter.run]
      rw [hstep.1, ih.1]

/-- A concrete limiter for the C7 witness: one entry for "k" that expires
at time 2. -/
def rlC7 : RateLimiter := ⟨100, 2, setStore emptyStore "k" ⟨1, 2⟩⟩

/-- Witness for C7: sweeping at time 3 (which removes the expired entry
for "k") leaves the decisions of calls at times 5 and 7 unchanged. -/
theorem C7_cleanup_sound_witness :
    (∀ t ∈ ([5, 7] : List Nat), 3 ≤ t) ∧
    ((rlC7.cleanup 3).run "k" [5, 7]).1 = (rlC7.run "k" [5, 7]).1 :=
  ⟨by decide, (C7_cleanup_sound rlC7 3).2 "k" [5, 7] (by decide)⟩

/-- An operation on a limiter: an `isAllowed` call, an administrative
`reset`, or a sweep firing, each with its wall-clock time where one is
read. -/
inductive RLOp where
  | allow (now : Nat) (key : String)
  | resetOp (key : String)
  | cleanupOp (now : Nat)
deriving DecidableEq, Repr

/-- Apply one operation to the limiter state. -/
def applyOp (rl : RateLimiter) : RLOp → RateLimiter
  | .allow now key => (rl.isAllowed now key).2
  | .resetOp key => rl.reset key
  | .cleanupOp now => rl.cleanup now

/-- Apply a sequence of operations, oldest first. -/
def applyOps (rl : RateLimiter) (ops : List RLOp) : RateLimiter :=
  ops.foldl applyOp rl

/-- Every entry present in the store has a count between 1 and `N`. -/
def CountsInRange (N : Nat) (st : RateStore) : Prop :=
  ∀ k e, st k = some e → 1 ≤ e.count ∧ e.count ≤ N

theorem applyOp_maxRequests (rl : RateLimiter) (op : RLOp) :
    (applyOp rl op).maxRequests = rl.maxRequests := by
  cases op with
  | allow now key => exact isAllowed_snd_maxRequests rl now key
  | resetOp key => rfl
  | cleanupOp now => rfl

theorem countsInRange_setStore (N : Nat) (st : RateStore) (key : String)
    (e : RateLimitEntry) (hst : CountsInRange N st)
    (he1 : 1 ≤ e.count) (he2 : e.count ≤ N) :
    CountsInRange N (setStore st key e) := by
  intro k e' h
  by_cases hk : k = key
  · rw [setStore, if_pos hk] at h
    injection h with h
    subst h
    exact ⟨he1, he2⟩
  · rw [setStore, if_neg hk] at h
    exact hst k e' h

/-- One operation preserves the count invariant (given budget `N ≥ 1`). -/
theorem applyOp_countsInRange (N : Nat) (hN : 1 ≤ N) (rl : RateLimiter)
    (hmax : rl.maxRequests = N) (hst : CountsInRange N rl.store) (op : RLOp) :
    CountsInRange N (applyOp rl op).store := by
  cases op with
  | allow now key =>
    show CountsInRange N ((rl.isAllowed now key).2).store
    rcases hs : rl.store key with _ | e
    · simp only [RateLimiter.isAllowed, hs]
      exact countsInRange_setStore N _ key _ hst (Nat.le_refl 1) hN
    · simp only [RateLimiter.isAllowed, hs]
      by_cases hexp : e.resetTime ≤ now
      · rw [if_pos hexp]
        exact countsInRange_setStore N _ key _ hst (Nat.le_refl 1) hN
      · rw [if_neg hexp]
        by_cases hcnt : rl.maxRequests ≤ e.count
        · rw [if_pos hcnt]
          exact hst
        · rw [if_neg hcnt]
          refine countsInRange_setStore N _ key _ hst ?_ ?_
          · show 1 ≤ e.count + 1
            omega
          · show e.count + 1 ≤ N
            omega
  | resetOp key =>
    intro k e h
    have h2 : delStore rl.store key k = some e := h
    simp only [delStore] at h2
    by_cases hk : k = key
    · rw [if_pos hk] at h2
      cases h2
    · rw [if_neg hk] at h2
      exact hst k e h2
  | cleanupOp now =>
    intro k e h
    have h2 : (match rl.store k with
      | none => none
      | some e2 => if now ≥ e2.resetTime then none else some e2) = some e := h
    rcases hs : rl.store k with _ | e2
    · simp only [hs] at h2
      cases h2
    · simp only [hs] at h2
      by_cases hexp : now ≥ e2.resetTime
      · rw [if_pos hexp] at h2
        cases h2
      · rw [if_neg hexp] at h2
        injection h2 with h2
        subst h2
        exact hst k e2 hs

/-- C10: starting from a freshly constructed limiter with budget
`maxRequests = N ≥ 1`, after any finite sequence of `isAllowed`, `reset`
and `cleanup` operations every entry present in the store satisfies
`1 ≤ count ≤ N`. -/
theorem C10_count_invariant (W N : Nat) (hN : 1 ≤ N) (ops : List RLOp) :
    CountsInRange N (applyOps (RateLimiter.init W N) ops).store := by
  suffices h : ∀ (ops : List RLOp) (rl : RateLimiter), rl.maxRequests = N →
      CountsInRange N rl.store → CountsInRange N (applyOps rl ops).store by
    refine h ops (RateLimiter.init W N) rfl ?_
    intro k e hke
    cases hke
  intro ops
  induction ops with
  | nil => exact fun rl _ h => h
  | cons op ops ih =>
    intro rl hmax hst
    exact ih (applyOp rl op) ((applyOp_maxRequests rl op).trans hmax)
      (applyOp_countsInRange N hN rl hmax hst op)

/-- Witness for C10: a concrete operation sequence (three calls for "a",
a sweep, a reset of "b") on a limiter with budget 2. -/
theorem C10_count_invariant_witness :
    CountsInRange 2 ((applyOps (RateLimiter.init 10 2)
      [RLOp.allow 0 "a", RLOp.allow 1 "a", RLOp.allow 2 "a",
       RLOp.cleanupOp 4, RLOp.resetOp "b"]).store) :=
  C10_count_invariant 10 2 (by decide)
    [RLOp.allow 0 "a", RLOp.allow 1 "a", RLOp.allow 2 "a",
     RLOp.cleanupOp 4, RLOp.resetOp "b"]

/-- C8 counterexample: with the x-forwarded-for header present but empty
(an empty header value is legal HTTP), the code ignores it and answers
from x-real-ip, whereas the claim says a present x-forwarded-for header
always wins with its first trimmed comma-separated entry (here the empty
string). -/
theorem C8_counterexample :
    getClientIP (some "") (some "1.2.3.4") none = "1.2.3.4" ∧
    jsTrim ((jsSplitComma "").headD "") = "" ∧
    getClientIP (some "") (some "1.2.3.4") none ≠
      jsTrim ((jsSplitComma "").headD "") :=
  ⟨by decide, by decide, by decide⟩

/-- C8 (amended): `getClientIP` returns, in priority order, the first
comma-separated trimmed entry of x-forwarded-for when that header is
present with a non-empty value; otherwise the trimmed x-real-ip when
present non-empty; otherwise the trimmed cf-connecting-ip when present
non-empty; otherwise "unknown" (headers that are present with an empty
value are treated as absent). -/
theorem C8_client_ip (fwd real cf : Option String) :
    (∀ s, fwd = some s → s ≠ "" →
      getClientIP fwd real cf = jsTrim ((jsSplitComma s).headD "")) ∧
    ((fwd = none ∨ fwd = some "") → ∀ s, real = some s → s ≠ "" →
      getClientIP fwd real cf = jsTrim s) ∧
    ((fwd = none ∨ fwd = some "") → (real = none ∨ real = some "") →
      ∀ s, cf = some s → s ≠ "" → getClientIP fwd real cf = jsTrim s) ∧
    ((fwd = none ∨ fwd = some "") → (real = none ∨ real = some "") →
      (cf = none ∨ cf = some "") → getClientIP fwd real cf = "unknown") := by
  refine ⟨?_, ?_, ?_, ?_⟩
  · rintro s rfl hs
    simp [getClientIP, jsTruthy, hs]
  · rintro hfwd s rfl hs
    rcases hfwd with rfl | rfl <;> simp [getClientIP, jsTruthy, hs]
  · rintro hfwd hreal s rfl hs
    rcases hfwd with rfl | rfl <;> rcases hreal with rfl | rfl <;>
      simp [getClientIP, jsTruthy, hs]
  · rintro hfwd hreal hcf
    rcases hfwd with rfl | rfl <;> rcases hreal with rfl | rfl <;>
      rcases hcf with rfl | rfl <;> simp [getClientIP, jsTruthy]

/-- Witness for the amended C8, exercising all four priority cases at
concrete headers. -/
theorem C8_client_ip_witness :
    getClientIP (some " 1.2.3.4 ,9.9.9.9") (some "8.8.8.8") (some "7.7.7.7") =
      "1.2.3.4" ∧
    getClientIP (some "") (some " 8.8.8.8 ") none = "8.8.8.8" ∧
    getClientIP none (some "") (some " 7.7.7.7") = "7.7.7.7" ∧
    getClientIP (some "") none (some "") = "unknown" :=
  ⟨((C8_client_ip (some " 1.2.3.4 ,9.9.9.9") (some "8.8.8.8")
      (some "7.7.7.7")).1 " 1.2.3.4 ,9.9.9.9" rfl (by decide)).trans (by decide),
   ((C8_client_ip (some "") (some " 8.8.8.8 ") none).2.1 (Or.inr rfl)
      " 8.8.8.8 " rfl (by decide)).trans (by decide),
   ((C8_client_ip none (some "") (some " 7.7.7.7")).2.2.1 (Or.inl rfl)
      (Or.inr rfl) " 7.7.7.7" rfl (by decide)).trans (by decide),
   (C8_client_ip (some "") none (some "")).2.2.2 (Or.inr rfl) (Or.inl rfl)
      (Or.inr rfl)⟩

/-- Modelled from the spec: the repository's base32 encoder
(`encodeBase32` in `utils/crypto.ts`) is not among the provided sources —
only its known-answer test is.  The spec describes standard base32 with
no padding; the test fixes the lowercase alphabet. -/
def base32Chars : List Char := "abcdefghijklmnopqrstuvwxyz234567".toList

/-- The `w`-bit big-endian bit pattern of `v`. -/
def natBits (w v : Nat) : List Bool :=
  (List.range w).map (fun i => v / 2 ^ (w - 1 - i) % 2 == 1)

/-- The value of a big-endian bit list. -/
def bitsVal (bs : List Bool) : Nat :=
  bs.foldl (fun a b => 2 * a + (if b then 1 else 0)) 0

/-- Split a bit stream into 5-bit groups, zero-padding the final group. -/
def fiveBitGroups (bits : List Bool) : List Nat :=
  (List.range ((bits.length + 4) / 5)).map (fun i =>
    bitsVal ((bits.drop (5 * i)).take 5 ++
      List.replicate (5 - ((bits.drop (5 * i)).take 5).length) false))

/-- Split a bit stream into complete 8-bit groups, dropping leftovers. -/
def eightBitGroups (bits : List Bool) : List Nat :=
  (List.range (bits.length / 8)).map (fun i =>
    bitsVal ((bits.drop (8 * i)).take 8))

/-- Modelled from the spec: base32-encode a byte sequence (lowercase
alphabet, no padding). -/
def encodeBase32 (bytes : List Nat) : String :=
  String.mk ((fiveBitGroups (bytes.flatMap (natBits 8))).map
    (fun v => base32Chars.getD v 'a'))

/-- Index of a character in the base32 alphabet, case-insensitively. -/
def base32Index (c : Char) : Option Nat :=
  base32Chars.findIdx? (fun x => x == c.toLower)

/-- Modelled from the spec: decode a base32 string to raw bytes
("decode the base32 secret to raw bytes", §4.3); any character outside
the alphabet makes the whole secret malformed (`none`). -/
def decodeBase32 (s : String) : Option (List Nat) :=
  (s.toList.mapM base32Index).map (fun vs => eightBitGroups (vs.flatMap (natBits 5)))

/-- Modelled from the spec: the candidate CSRF token is taken from the
dedicated request header, else from the same-named field of the supplied
form data (`utils/csrf.ts` is not among the provided sources — only its
tests are).  Empty values are falsy. -/
def csrfCandidate (headerToken formToken : Option String) : Option String :=
  if jsTruthy headerToken then headerToken else formToken

/-- Modelled from the spec: `validateCSRFToken` returns true only if a
cookie token exists, a candidate token was found, and the two are exactly
equal; any missing or empty piece gives false (§4.2). -/
def validateCSRFToken (cookieToken headerToken formToken : Option String) : Bool :=
  (jsTruthy cookieToken && jsTruthy (csrfCandidate headerToken formToken)) &&
    (cookieToken.getD "" == (csrfCandidate headerToken formToken).getD "")

/-- The TOTP step length in seconds (fixed at 30 by the spec, §6). -/
def totpStep : Nat := 30

/-- The 8-byte big-endian encoding of the time counter (§4.3). -/
def counterBytes (c : Nat) : List Nat :=
  (List.range 8).map (fun i => c / 2 ^ (8 * (7 - i)) % 256)

/-- Dynamic truncation (§4.3): a 4-byte window selected by the low nibble
of the digest's final byte, with the top bit of the first byte masked
off, read as a big-endian 31-bit integer. -/
def dynamicTruncate (h : List Nat) : Nat :=
  (h.getD (h.getLastD 0 % 16) 0 % 128) * 2 ^ 24 +
    (h.getD (h.getLastD 0 % 16 + 1) 0 % 256) * 2 ^ 16 +
    (h.getD (h.getLastD 0 % 16 + 2) 0 % 256) * 2 ^ 8 +
    h.getD (h.getLastD 0 % 16 + 3) 0 % 256

/-- The ten decimal digit characters. -/
def digitChars : List Char := "0123456789".toList

/-- Format a code value as a zero-padded 6-digit decimal string (§4.3). -/
def formatCode (n : Nat) : String :=
  String.mk ((List.range 6).map (fun i =>
    digitChars.getD (n / 10 ^ (5 - i) % 10) '0'))

/-- Modelled from the spec: the TOTP code for a decoded key at a time in
Unix seconds (`utils/totp.ts` is not among the provided sources — only
its tests are).  The keyed hash (HMAC with a cryptographic hash function,
§4.3) is abstracted as the parameter `prf` mapping a key and a message to
a digest byte sequence. -/
def generateTOTPAt (prf : List Nat → List Nat → List Nat) (key : List Nat)
    (timeSec : Nat) : String :=
  formatCode (dynamicTruncate (prf key (counterBytes (timeSec / totpStep))) % 10 ^ 6)

/-- Modelled from the spec: `generateTOTP` on a base32 secret; a
malformed secret cannot be decoded. -/
def generateTOTP (prf : List Nat → List Nat → List Nat) (secret : String)
    (timeSec : Nat) : Option String :=
  (decodeBase32 secret).map (fun key => generateTOTPAt prf key timeSec)

/-- The times checked by validation with drift tolerance `window`:
`{now - window·step, …, now, …, now + window·step}` (§4.3). -/
def totpCandidateTimes (now window : Nat) : List Nat :=
  (List.range (2 * window + 1)).map (fun i => now + i * totpStep - window * totpStep)

/-- Modelled from the spec: `validateTOTP` accepts the code iff it equals
the generated code at some candidate time; a malformed secret rejects. -/
def validateTOTP (prf : List Nat → List Nat → List Nat) (secret code : String)
    (now window : Nat) : Bool :=
  match decodeBase32 secret with
  | none => false
  | some key =>
    (totpCandidateTimes now window).any (fun t => code == generateTOTPAt prf key t)

/-- A concrete stand-in digest function used by the TOTP witnesses:
20 bytes derived from the key and message sums. -/
def prfTest : List Nat → List Nat → List Nat :=
  fun key msg => (List.range 20).map (fun i => (key.sum + 3 * msg.sum + 7 * i) % 256)

/-- The byte sequence of the ASCII text "hello". -/
def helloBytes : List Nat := [104, 101, 108, 108, 111]

example : encodeBase32 helloBytes = "nbswy3dp" := by decide

example : decodeBase32 "nbswy3dp" = some helloBytes := by decide

example : (generateTOTPAt prfTest helloBytes 59).length = 6 := by decide

example : validateTOTP prfTest "nbswy3dp" (generateTOTPAt prfTest helloBytes 59)
    59 1 = true := by decide

example : validateCSRFToken (some "tok") (some "tok") none = true := by decide

example : validateCSRFToken (some "tok") none (some "tok") = true := by decide

example : validateCSRFToken (some "tok") (some "bad") (some "tok") = false := by
  decide

example : validateCSRFToken (some "") (some "") none = false := by decide

/-- C9: base32-encoding the byte sequence for the ASCII text "hello"
(bytes 104, 101, 108, 108, 111) yields the lowercase base32 string
"nbswy3dp" with no padding. -/
theorem C9_base32_hello :
    encodeBase32 [104, 101, 108, 108, 111] = "nbswy3dp" := by decide

/-- The candidate token is `some tok` (for a non-empty `tok`) exactly when
the header carries it, or the header is falsy and the form field does. -/
theorem csrfCandidate_some (headerToken formToken : Option String)
    (tok : String) (htok : tok ≠ "") :
    csrfCandidate headerToken formToken = some tok ↔
      (headerToken = some tok ∨
        (jsTruthy headerToken = false ∧ formToken = some tok)) := by
  unfold csrfCandidate
  by_cases hh : jsTruthy headerToken
  · rw [if_pos hh]
    simp [hh]
  · rw [if_neg hh]
    rw [Bool.not_eq_true] at hh
    have hnot : headerToken ≠ some tok := by
      intro h0
      rw [h0] at hh
      simp [jsTruthy, htok] at hh
    simp [hh, hnot]

/-- `validateCSRFToken` is true exactly when the cookie holds a non-empty
token and the candidate equals it. -/
theorem validateCSRFToken_true_iff
    (cookieToken headerToken formToken : Option String) :
    validateCSRFToken cookieToken headerToken formToken = true ↔
      ∃ tok, tok ≠ "" ∧ cookieToken = some tok ∧
        csrfCandidate headerToken formToken = some tok := by
  unfold validateCSRFToken
  rcases cookieToken with _ | ct <;>
    rcases hb : csrfCandidate headerToken formToken with _ | cand <;>
      simp [jsTruthy, hb]
  rintro rfl h
  exact h

/-- C3: `validateCSRFToken` returns true iff a cookie token exists, a
candidate token is found in the dedicated header or (failing that) in the
same-named form field, and the two are exactly equal; any missing piece
(no cookie, no header/field, mismatch, empty value) yields false.  Being
a total `Bool` function, it never throws. -/
theorem C3_csrf_validate (cookieToken headerToken formToken : Option String) :
    validateCSRFToken cookieToken headerToken formToken = true ↔
    ∃ tok, tok ≠ "" ∧ cookieToken = some tok ∧
      (headerToken = some tok ∨
        (jsTruthy headerToken = false ∧ formToken = some tok)) := by
  rw [validateCSRFToken_true_iff]
  constructor
  · rintro ⟨tok, htok, hck, hcand⟩
    exact ⟨tok, htok, hck, (csrfCandidate_some _ _ tok htok).mp hcand⟩
  · rintro ⟨tok, htok, hck, h⟩
    exact ⟨tok, htok, hck, (csrfCandidate_some _ _ tok htok).mpr h⟩

/-- Witness for C3: both directions at concrete tokens. -/
theorem C3_csrf_validate_witness :
    validateCSRFToken (some "tok") none (some "tok") = true ∧
    validateCSRFToken (some "tok") (some "bad") (some "tok") ≠ true :=
  ⟨(C3_csrf_validate (some "tok") none (some "tok")).mpr
      ⟨"tok", by decide, rfl, Or.inr ⟨rfl, rfl⟩⟩,
   fun h => by
    rcases (C3_csrf_validate (some "tok") (some "bad") (some "tok")).mp h with
      ⟨tok, htok, hck, hor⟩
    have : tok = "tok" := by
      injection hck with hck
      exact hck.symm
    subst this
    rcases hor with hbad | ⟨hfalse, _⟩
    · exact absurd hbad (by decide)
    · exact absurd hfalse (by decide)⟩

theorem digitChars_getD_isDigit : ∀ v, v < 10 →
    (digitChars.getD v '0').isDigit = true := by decide

theorem formatCode_length (n : Nat) : (formatCode n).length = 6 := by
  simp [formatCode, String.length]

theorem formatCode_isDigit (n : Nat) :
    ∀ c ∈ (formatCode n).toList, c.isDigit = true := by
  intro c hc
  simp only [formatCode, String.toList, List.mem_map, List.mem_range] at hc
  obtain ⟨i, _, rfl⟩ := hc
  exact digitChars_getD_isDigit _ (Nat.mod_lt _ (by omega))

theorem generateTOTPAt_length (prf : List Nat → List Nat → List Nat)
    (key : List Nat) (t : Nat) : (generateTOTPAt prf key t).length = 6 :=
  formatCode_length _

/-- The code depends on the time only through its 30-second counter. -/
theorem generateTOTPAt_congr (prf : List Nat → List Nat → List Nat)
    (key : List Nat) (t1 t2 : Nat) (h : t1 / totpStep = t2 / totpStep) :
    generateTOTPAt prf key t1 = generateTOTPAt prf key t2 := by
  rw [generateTOTPAt, generateTOTPAt, h]

theorem totpCandidateTimes_one (now : Nat) :
    totpCandidateTimes now 1 = [now - 30, now, now + 30] := by
  have h3 : List.range 3 = [0, 1, 2] := rfl
  simp only [totpCandidateTimes, totpStep, h3, List.map_cons, List.map_nil,
    List.cons.injEq, and_true]
  refine ⟨by omega, by omega, by omega⟩

/-- Validation accepts exactly the codes generated at a candidate time. -/
theorem validateTOTP_true_iff (prf : List Nat → List Nat → List Nat)
    (secret code : String) (key : List Nat) (now window : Nat)
    (hdec : decodeBase32 secret = some key) :
    validateTOTP prf secret code now window = true ↔
      ∃ u ∈ totpCandidateTimes now window, code = generateTOTPAt prf key u := by
  simp only [validateTOTP, hdec, List.any_eq_true, beq_iff_eq]

/-- C5: for every decodable secret and every time, the generated code is
the dynamically truncated digest value reduced modulo 10^6 and
zero-padded to exactly 6 decimal digits, and validating the freshly
generated code at the moment of generation succeeds. -/
theorem C5_totp_generate (prf : List Nat → List Nat → List Nat)
    (secret : String) (key : List Nat) (t : Nat)
    (hdec : decodeBase32 secret = some key) :
    generateTOTP prf secret t = some (generateTOTPAt prf key t) ∧
    generateTOTPAt prf key t =
      formatCode (dynamicTruncate (prf key (counterBytes (t / totpStep))) % 10 ^ 6) ∧
    (generateTOTPAt prf key t).length = 6 ∧
    (∀ c ∈ (generateTOTPAt prf key t).toList, c.isDigit = true) ∧
    validateTOTP prf secret (generateTOTPAt prf key t) t 1 = true := by
  refine ⟨by simp [generateTOTP, hdec], rfl, formatCode_length _,
    formatCode_isDigit _, ?_⟩
  rw [validateTOTP_true_iff prf secret _ key t 1 hdec]
  refine ⟨t, ?_, rfl⟩
  rw [totpCandidateTimes_one]
  simp

/-- Witness for C5 at the secret "nbswy3dp" (which decodes to the bytes
of "hello"), time 59, and the concrete digest stand-in. -/
theorem C5_totp_generate_witness :
    generateTOTP prfTest "nbswy3dp" 59 =
      some (generateTOTPAt prfTest helloBytes 59) ∧
    generateTOTPAt prfTest helloBytes 59 =
      formatCode (dynamicTruncate (prfTest helloBytes
        (counterBytes (59 / totpStep))) % 10 ^ 6) ∧
    (generateTOTPAt prfTest helloBytes 59).length = 6 ∧
    (∀ c ∈ (generateTOTPAt prfTest helloBytes 59).toList, c.isDigit = true) ∧
    validateTOTP prfTest "nbswy3dp" (generateTOTPAt prfTest helloBytes 59)
      59 1 = true :=
  C5_totp_generate prfTest "nbswy3dp" helloBytes 59 (by decide)

/-- C4: with the default tolerance `k = 1`, validation succeeds exactly
when the code was generated at some time in {now-30, now, now+30}; a code
generated at `t` validates at `t+25`; at `t+95` every checked counter is
at least two 30-second steps past `t`'s counter, so the code fails
validation whenever the digest does not produce a colliding code there;
an undecodable secret or a code of length other than 6 always rejects. -/
theorem C4_totp_drift (prf : List Nat → List Nat → List Nat)
    (secret code : String) (key : List Nat) (now t : Nat)
    (hdec : decodeBase32 secret = some key) :
    (validateTOTP prf secret code now 1 = true ↔
      ∃ u ∈ totpCandidateTimes now 1, code = generateTOTPAt prf key u) ∧
    validateTOTP prf secret (generateTOTPAt prf key t) (t + 25) 1 = true ∧
    (∀ u ∈ totpCandidateTimes (t + 95) 1, t / totpStep + 2 ≤ u / totpStep) ∧
    ((∀ u ∈ totpCandidateTimes (t + 95) 1,
        generateTOTPAt prf key u ≠ generateTOTPAt prf key t) →
      validateTOTP prf secret (generateTOTPAt prf key t) (t + 95) 1 = false) ∧
    (∀ s2 c2 : String, ∀ n2 : Nat, decodeBase32 s2 = none →
      validateTOTP prf s2 c2 n2 1 = false) ∧
    (code.length ≠ 6 → validateTOTP prf secret code now 1 = false) := by
  refine ⟨validateTOTP_true_iff prf secret code key now 1 hdec, ?_, ?_, ?_, ?_, ?_⟩
  · rw [validateTOTP_true_iff prf secret _ key (t + 25) 1 hdec]
    rw [totpCandidateTimes_one]
    by_cases hmod : t % 30 ≤ 4
    · refine ⟨t + 25, by simp, ?_⟩
      exact generateTOTPAt_congr prf key t (t + 25) (by simp [totpStep]; omega)
    · refine ⟨t + 25 - 30, by simp, ?_⟩
      exact generateTOTPAt_congr prf key t (t + 25 - 30) (by simp [totpStep]; omega)
  · intro u hu
    rw [totpCandidateTimes_one] at hu
    simp only [List.mem_cons, List.mem_singleton, List.not_mem_nil, or_false] at hu
    simp only [totpStep]
    rcases hu with rfl | rfl | rfl <;> omega
  · intro hcol
    cases hb : validateTOTP prf secret (generateTOTPAt prf key t) (t + 95) 1 with
    | false => rfl
    | true =>
      rcases (validateTOTP_true_iff prf secret _ key (t + 95) 1 hdec).mp hb with
        ⟨u, hu, heq⟩
      exact absurd heq.symm (hcol u hu)
  · intro s2 c2 n2 h2
    simp [validateTOTP, h2]
  · intro hlen
    cases hb : validateTOTP prf secret code now 1 with
    | false => rfl
    | true =>
      rcases (validateTOTP_true_iff prf secret code key now 1 hdec).mp hb with
        ⟨u, _, heq⟩
      rw [heq, generateTOTPAt_length] at hlen
      exact absurd rfl hlen

/-- Witness for C4 at the secret "nbswy3dp", generation time 1000 and the
concrete digest stand-in: the code validates at 1025 and fails at 1095. -/
theorem C4_totp_drift_witness :
    validateTOTP prfTest "nbswy3dp" (generateTOTPAt prfTest helloBytes 1000)
      1025 1 = true ∧
    validateTOTP prfTest "nbswy3dp" (generateTOTPAt prfTest helloBytes 1000)
      1095 1 = false :=
  ⟨(C4_totp_drift prfTest "nbswy3dp" "" helloBytes 0 1000 (by decide)).2.1,
   (C4_totp_drift prfTest "nbswy3dp" "" helloBytes 0 1000 (by decide)).2.2.2.1
     (by decide)⟩
